import Mathlib

set_option maxRecDepth 4000

/-!
Verification of the SRL-Mandelbrot progressive renderer (src/main.cxx).

Shallow embedding conventions:
- The generic numeric type (template parameter RealT, Fxp in the program) is
  instantiated with the exact rationals, following the spec statement that the
  engine is generic over the numeric type.
- Machine integers (uint8_t, uint16_t, size_t) are Nat; the uint8_t store into
  the pixel buffer truncates mod 256.
- The pixel buffer (uint8_t array) is a List Nat; writes use List.set.
- The external SRL color type is kept as the component triple; its 16-bit
  machine encoding is abstracted as a function parameter named enc, since that
  encoding lives in the external library, not in this repository.
- Functions that emit fatal log messages return the list of emitted messages
  alongside their value, so silence of a path is a provable statement.
-/

/-- Modelled from the spec: HighColor is the color type of the external SRL
library (not under src/). Spec section 4.2 describes a palette entry as the
component triple handed to the initializer, reproduced bit for bit, so a color
is embedded as that triple of components. -/
structure HighColor where
  red : Nat
  green : Nat
  blue : Nat

/-- Modelled from the spec: the HighColor factory used by Palette Init
(external SRL library). Per spec section 4.2 the created entry carries exactly
the given components. -/
def HighColor.FromRGB555 (r g b : Nat) : HighColor :=
  ⟨r, g, b⟩

/-- Palette over the SRL base class: the base class owns Count colors.
The embedding stores the color table as a list; Count is its length. -/
structure Palette where
  Colors : List HighColor

/-- Count member of the SRL palette base class: number of entries. -/
def Palette.Count (p : Palette) : Nat :=
  p.Colors.length

/-- Palette SetColor (main.cxx lines 766-776): stores the color when the index
is in range. On the out-of-range branch the source only emits a fatal log and
leaves the table unchanged. -/
def Palette.SetColor (p : Palette) (index : Nat) (color : HighColor) : Palette :=
  if index < p.Count then { Colors := p.Colors.set index color } else p

/-- Palette GetColor (main.cxx lines 778-786): returns the stored color for an
in-range index; out of range it emits a fatal log and returns black. The second
component is the list of fatal log messages emitted by the call. -/
def Palette.GetColor (p : Palette) (index : Nat) : HighColor × List String :=
  if h : index < p.Count then (p.Colors.get ⟨index, h⟩, [])
  else (HighColor.FromRGB555 0 0 0, ["index out of bound"])

/-- Palette Init (main.cxx lines 788-795): fills entries 0..Count-2 with the
gradient FromRGB555(i, i*2 % 256, i*4 % 256) and then sets entry Count-1 to
white. The source loop counter is a uint8_t; for the programs only
instantiation (Count = 256) the loop visits exactly 0..254, which the fold over
List.range (Count - 1) reproduces. -/
def Palette.Init (p : Palette) : Palette :=
  ((List.range (p.Count - 1)).foldl
    (fun q i => q.SetColor i (HighColor.FromRGB555 i (i * 2 % 256) (i * 4 % 256))) p).SetColor
    (p.Count - 1) (HighColor.FromRGB555 255 255 255)

/-- Canvas (main.cxx lines 803-818): width, height, the 8-bit indexed image
buffer, and the BitmapInfo holding the bound palette reference. -/
structure Canvas where
  width : Nat
  height : Nat
  imageData : List Nat
  palette : Palette

/-- Canvas SetPixel (main.cxx lines 831-837). When (x, y) is in bounds the
source executes imageData[y * width + x] = bitmap->Palette->Colors[color]:
the palette entry (a 16-bit HighColor) is converted to its machine value and
truncated into the uint8_t cell. The external 16-bit encoding of a color is
the parameter enc; the uint8_t conversion is mod 256. Out of bounds the call
does nothing and emits nothing; the second component is the (always empty)
list of log messages, mirroring the absence of any log statement in the
source. -/
def Canvas.SetPixel (enc : HighColor → Nat) (cv : Canvas) (x y color : Nat) :
    Canvas × List String :=
  if x < cv.width ∧ y < cv.height then
    ({ cv with
        imageData := cv.imageData.set (y * cv.width + x)
          (enc (cv.palette.Colors.getD color ⟨0, 0, 0⟩) % 256) }, [])
  else (cv, [])

/-- Canvas constructor buffer (main.cxx line 815): new uint8_t[width * height].
The C++ buffer is uninitialized; the renderer theorems below therefore
quantify over arbitrary initial buffer contents, and this allocation model
fixes only the size. -/
def Canvas.alloc (w h : Nat) (pal : Palette) : Canvas :=
  ⟨w, h, List.replicate (w * h) 0, pal⟩

/-- MandelbrotParameters (main.cxx lines 880-887): a complex sample paired
with its pixel coordinate. -/
structure MandelbrotParameters where
  real : ℚ
  imag : ℚ
  x : Nat
  y : Nat

/-- MAX_ITERATIONS constant (main.cxx line 751). -/
def MAX_ITERATIONS : Nat := 100

/-- Canvas width constant (SRL::TV::Width, main.cxx line 752). -/
def WIDTH : Nat := 320

/-- Canvas height constant (SRL::TV::Height, main.cxx line 753). -/
def HEIGHT : Nat := 240

/-- Loop body of calculateMandelbrot (main.cxx lines 1041-1052). The state is
the remaining fuel (maxIterations - iteration), the current orbit point
(zr, zi) and the iteration counter; fuel 0 is the loop exit returning
maxIterations (passed as M). Each pass computes the next orbit point, returns
the current counter when its squared magnitude exceeds 4, and otherwise
continues with the incremented counter. -/
def mandelGo (M : Nat) (cr ci : ℚ) : Nat → ℚ → ℚ → Nat → Nat
  | 0, _, _, _ => M
  | fuel + 1, zr, zi, iteration =>
    let zRealTemp := zr * zr - zi * zi + cr
    let zImagNew := 2 * zr * zi + ci
    if zRealTemp * zRealTemp + zImagNew * zImagNew > 4 then iteration
    else mandelGo M cr ci fuel zRealTemp zImagNew (iteration + 1)

/-- MandelbrotRenderer calculateMandelbrot (main.cxx lines 1033-1054): starts
the orbit at the sample itself and runs the escape loop. -/
def calculateMandelbrot (params : MandelbrotParameters) (maxIterations : Nat) : Nat :=
  mandelGo maxIterations params.real params.imag maxIterations params.real params.imag 0

/-- Loop body of the hypothetical greater-or-equal escape variant named by the
spec (section 8): identical to mandelGo except that the escape comparison is
not strict. This definition follows the spec wording of the foil and exists
only to be compared with the source algorithm. -/
def mandelGoGe (M : Nat) (cr ci : ℚ) : Nat → ℚ → ℚ → Nat → Nat
  | 0, _, _, _ => M
  | fuel + 1, zr, zi, iteration =>
    let zRealTemp := zr * zr - zi * zi + cr
    let zImagNew := 2 * zr * zi + ci
    if zRealTemp * zRealTemp + zImagNew * zImagNew ≥ 4 then iteration
    else mandelGoGe M cr ci fuel zRealTemp zImagNew (iteration + 1)

/-- Escape-count function of the spec foil with the non-strict comparison. -/
def calculateMandelbrotGe (params : MandelbrotParameters) (maxIterations : Nat) : Nat :=
  mandelGoGe maxIterations params.real params.imag maxIterations params.real params.imag 0

/-- Spec-side orbit: z 0 = c, z (n+1) = z n squared plus c (spec section 4.1). -/
def orbitZ (cr ci : ℚ) : Nat → ℚ × ℚ
  | 0 => (cr, ci)
  | n + 1 =>
    ((orbitZ cr ci n).1 * (orbitZ cr ci n).1 - (orbitZ cr ci n).2 * (orbitZ cr ci n).2 + cr,
     2 * (orbitZ cr ci n).1 * (orbitZ cr ci n).2 + ci)

/-- Spec-side escape test at orbit index n: squared magnitude exceeds 4. -/
def escapesAt (cr ci : ℚ) (n : Nat) : Bool :=
  decide ((orbitZ cr ci n).1 * (orbitZ cr ci n).1 +
    (orbitZ cr ci n).2 * (orbitZ cr ci n).2 > 4)

/-- Spec-side count following the claim wording for the engine contract: the
smallest n with squared magnitude of z n exceeding 4 when such n at most
maxIterations exists, and maxIterations otherwise (spec section 4.1). -/
def specSmallestEscape (cr ci : ℚ) (M : Nat) : Nat :=
  ((List.range (M + 1)).find? (escapesAt cr ci)).getD M

/-- First index k < M such that orbit point k+1 escapes; what the source loop
actually locates (the loop tests the orbit only after its first update). -/
def escapeIndex (cr ci : ℚ) (M : Nat) : Option Nat :=
  (List.range M).find? (fun k => escapesAt cr ci (k + 1))

/-- Linear interpolation used for samples (main.cxx lines 970-974):
lo + i * (hi - lo) / (count - 1), with count - 1 the uint16 subtraction. -/
def interpolate (lo hi : ℚ) (count : Nat) (i : Nat) : ℚ :=
  lo + (i : ℚ) * (hi - lo) / ((count - 1 : Nat) : ℚ)

/-- MandelbrotRenderer state (main.cxx lines 896-925): the Width, Height,
viewport and maxIterations members fixed by the constructor, the canvas, and
the scanline machine registers currentY, currentX, renderComplete. -/
structure RendererState where
  Width : Nat
  Height : Nat
  minReal : ℚ
  maxReal : ℚ
  minImag : ℚ
  maxImag : ℚ
  maxIterations : Nat
  canvas : Canvas
  currentY : Nat
  currentX : Nat
  renderComplete : Bool

/-- Body of the per-pixel loop of render (main.cxx lines 968-978): build the
sample for pixel (x, y) by linear interpolation, run the escape engine, and
write iteration % 256 through SetPixel. -/
def renderPixel (enc : HighColor → Nat) (mnR mxR mnI mxI : ℚ) (W H M y : Nat)
    (cv : Canvas) (x : Nat) : Canvas :=
  (cv.SetPixel enc x y
    (calculateMandelbrot ⟨interpolate mnR mxR W x, interpolate mnI mxI H y, x, y⟩ M % 256)).1

/-- One scanline of render (main.cxx lines 968-978): the for loop over
currentX from 0 to Width - 1. -/
def renderRow (enc : HighColor → Nat) (mnR mxR mnI mxI : ℚ) (W H M y : Nat)
    (cv : Canvas) : Canvas :=
  (List.range W).foldl (renderPixel enc mnR mxR mnI mxI W H M y) cv

/-- MandelbrotRenderer render, local-only variant (main.cxx lines 959-988):
reset currentY when it reached Height, render one scanline, reset currentX,
advance currentY, and raise renderComplete when currentY reaches Height. -/
def render (enc : HighColor → Nat) (s : RendererState) : RendererState :=
  let y := if s.Height ≤ s.currentY then 0 else s.currentY
  { s with
    canvas := renderRow enc s.minReal s.maxReal s.minImag s.maxImag
      s.Width s.Height s.maxIterations y s.canvas,
    currentX := 0,
    currentY := y + 1,
    renderComplete := if s.Height ≤ y + 1 then true else s.renderComplete }

/-- MandelbrotRenderer isComplete (main.cxx line 1022). -/
def isComplete (s : RendererState) : Bool :=
  s.renderComplete

/-- One iteration of the main program loop (main.cxx lines 1073-1083): render
is called only while isComplete is false; draw and Synchronize do not touch
renderer state. -/
def mainTick (enc : HighColor → Nat) (s : RendererState) : RendererState :=
  if isComplete s then s else render enc s

/-- Renderer state as built by the constructor (main.cxx lines 917-951):
currentY = 0, currentX = 0, renderComplete = false, canvas bound to the
palette. Width, Height, the viewport and maxIterations are parameters here;
the program instantiates them with WIDTH, HEIGHT, the canonical viewport and
MAX_ITERATIONS. The initial buffer contents are a parameter because the C++
allocation leaves them unspecified. -/
def mkRenderer (W H : Nat) (mnR mxR mnI mxI : ℚ) (M : Nat) (pal : Palette)
    (data : List Nat) : RendererState :=
  { Width := W, Height := H, minReal := mnR, maxReal := mxR, minImag := mnI,
    maxImag := mxI, maxIterations := M,
    canvas := ⟨W, H, data, pal⟩,
    currentY := 0, currentX := 0, renderComplete := false }

/-- SlaveTask (main.cxx lines 448-505): the submitted parameters and the
iteration count the slave computes in Do (main.cxx lines 699-703). -/
structure SlaveTask where
  params : MandelbrotParameters
  iteration : Nat

/-- State of the offload-variant renderer (main.cxx lines 513-533): the same
scanline machine plus the owned SlaveTask. The poll counter indexes the IsDone
polls so the environment (the secondary execution unit) can be modelled as a
boolean oracle over polls. The offload variant has no maxIterations member; it
uses the static MAX_ITERATIONS. -/
structure OffloadState where
  Width : Nat
  Height : Nat
  minReal : ℚ
  maxReal : ℚ
  minImag : ℚ
  maxImag : ℚ
  canvas : Canvas
  currentY : Nat
  currentX : Nat
  renderComplete : Bool
  task : SlaveTask
  polls : Nat

/-- Body of the per-pixel loop of the offload render (main.cxx lines 594-615):
if the task polls done, consume the stored coordinate and the iteration the
slave computed for the stored parameters (SlaveTask Do, main.cxx lines
699-703) and write it; then overwrite the task with the current sample
(submission to the slave is fire and forget); then always compute locally and
write the current pixel. The oracle gives the IsDone answer for each poll. -/
def offloadPixel (enc : HighColor → Nat) (oracle : Nat → Bool) (mnR mxR mnI mxI : ℚ)
    (W H y : Nat) (acc : Canvas × SlaveTask × Nat) (x : Nat) : Canvas × SlaveTask × Nat :=
  let p : MandelbrotParameters := ⟨interpolate mnR mxR W x, interpolate mnI mxI H y, x, y⟩
  let cv1 := if oracle acc.2.2 then
      (acc.1.SetPixel enc acc.2.1.params.x acc.2.1.params.y
        (calculateMandelbrot acc.2.1.params MAX_ITERATIONS % 256)).1
    else acc.1
  ((cv1.SetPixel enc x y (calculateMandelbrot p MAX_ITERATIONS % 256)).1,
   ⟨p, acc.2.1.iteration⟩, acc.2.2 + 1)

/-- One scanline of the offload render (main.cxx lines 594-615). -/
def offloadRow (enc : HighColor → Nat) (oracle : Nat → Bool) (mnR mxR mnI mxI : ℚ)
    (W H y : Nat) (acc : Canvas × SlaveTask × Nat) : Canvas × SlaveTask × Nat :=
  (List.range W).foldl (offloadPixel enc oracle mnR mxR mnI mxI W H y) acc

/-- MandelbrotRenderer render, offload variant (main.cxx lines 585-625): the
same scanline machine as the local variant with the cooperative task steps in
the pixel loop. -/
def renderOffload (enc : HighColor → Nat) (oracle : Nat → Bool) (s : OffloadState) :
    OffloadState :=
  let y := if s.Height ≤ s.currentY then 0 else s.currentY
  let r := offloadRow enc oracle s.minReal s.maxReal s.minImag s.maxImag
    s.Width s.Height y (s.canvas, s.task, s.polls)
  { s with
    canvas := r.1,
    task := r.2.1,
    polls := r.2.2,
    currentX := 0,
    currentY := y + 1,
    renderComplete := if s.Height ≤ y + 1 then true else s.renderComplete }

/-- Offload renderer state as built by the constructor (main.cxx lines
541-577): the scanline registers start at zero and the task starts in the
reset state passed by the caller; no poll has happened yet. -/
def mkOffloadRenderer (W H : Nat) (mnR mxR mnI mxI : ℚ) (pal : Palette)
    (data : List Nat) (tk : SlaveTask) : OffloadState :=
  { Width := W, Height := H, minReal := mnR, maxReal := mxR, minImag := mnI,
    maxImag := mxI,
    canvas := ⟨W, H, data, pal⟩,
    currentY := 0, currentX := 0, renderComplete := false,
    task := tk, polls := 0 }

/-- Byte count of the vblank DMA copy (main.cxx lines 999-1001):
Width * Height * sizeof(uint16_t). -/
def copyToVDP1Bytes (W H : Nat) : Nat :=
  W * H * 2

/-- Invariant of the local renderer after k completed ticks from the fresh
state: the constructor fields are unchanged, the scanline register equals k,
the completion flag is raised exactly when k reached Height (and k is
positive), and every pixel of the first k rows holds the byte-truncated
palette color selected by the escape count of its sample. -/
def RenderInv (enc : HighColor → Nat) (W H : Nat) (mnR mxR mnI mxI : ℚ) (M : Nat)
    (pal : Palette) (k : Nat) (s : RendererState) : Prop :=
  s.Width = W ∧ s.Height = H ∧ s.minReal = mnR ∧ s.maxReal = mxR ∧ s.minImag = mnI ∧
  s.maxImag = mxI ∧ s.maxIterations = M ∧ s.canvas.width = W ∧ s.canvas.height = H ∧
  s.canvas.palette = pal ∧ s.canvas.imageData.length = W * H ∧
  s.currentY = k ∧ s.renderComplete = decide (0 < k ∧ H ≤ k) ∧
  ∀ x yy, x < W → yy < k →
    s.canvas.imageData.getD (yy * W + x) 0
      = enc (pal.Colors.getD
          (calculateMandelbrot
            ⟨interpolate mnR mxR W x, interpolate mnI mxI H yy, x, yy⟩ M % 256)
          ⟨0, 0, 0⟩) % 256

/-- Coupling relation between the offload-variant renderer state and the
local-only renderer state: all shared scanline-machine components agree (the
task and poll counter exist only on the offload side). -/
def OffCoupled (so : OffloadState) (sl : RendererState) : Prop :=
  so.Width = sl.Width ∧ so.Height = sl.Height ∧ so.minReal = sl.minReal ∧
  so.maxReal = sl.maxReal ∧ so.minImag = sl.minImag ∧ so.maxImag = sl.maxImag ∧
  so.canvas = sl.canvas ∧ so.currentY = sl.currentY ∧
  so.renderComplete = sl.renderComplete

theorem set_getD_eq {α : Type} (l : List α) (i : Nat) (v d : α) (h : i < l.length) :
    (l.set i v).getD i d = v := by
  simp [List.getD_eq_getElem?_getD, List.getElem?_set_self h]

theorem set_getD_ne {α : Type} (l : List α) (i j : Nat) (v d : α) (h : i ≠ j) :
    (l.set i v).getD j d = l.getD j d := by
  simp [List.getD_eq_getElem?_getD, List.getElem?_set_ne h]

theorem get_eq_getD {α : Type} (l : List α) (i : Nat) (h : i < l.length) (d : α) :
    l.get ⟨i, h⟩ = l.getD i d := by
  simp [List.getD_eq_getElem?_getD, List.getElem?_eq_getElem h]

theorem pixel_index_lt {x y W H : Nat} (hx : x < W) (hy : y < H) :
    y * W + x < W * H := by
  have e1 : (y + 1) * W = y * W + W := by ring
  have h2 : (y + 1) * W ≤ H * W := Nat.mul_le_mul_right W hy
  have e2 : H * W = W * H := by ring
  omega

theorem pixel_index_inj {x y x' y' W : Nat} (hx : x < W) (hx' : x' < W)
    (h : y * W + x = y' * W + x') : y = y' ∧ x = x' := by
  rcases Nat.lt_trichotomy y y' with hlt | heq | hgt
  · exfalso
    have h1 : (y + 1) * W ≤ y' * W := Nat.mul_le_mul_right W hlt
    have e1 : (y + 1) * W = y * W + W := by ring
    omega
  · subst heq; omega
  · exfalso
    have h1 : (y' + 1) * W ≤ y * W := Nat.mul_le_mul_right W hgt
    have e1 : (y' + 1) * W = y' * W + W := by ring
    omega

theorem setColor_length (p : Palette) (i : Nat) (c : HighColor) :
    (p.SetColor i c).Colors.length = p.Colors.length := by
  unfold Palette.SetColor
  split <;> simp

theorem setColor_getD_eq (p : Palette) (i : Nat) (c d : HighColor)
    (h : i < p.Colors.length) : (p.SetColor i c).Colors.getD i d = c := by
  unfold Palette.SetColor
  rw [if_pos (show i < p.Count from h)]
  exact set_getD_eq _ _ _ _ h

theorem setColor_getD_ne (p : Palette) (i j : Nat) (c d : HighColor) (h : i ≠ j) :
    (p.SetColor i c).Colors.getD j d = p.Colors.getD j d := by
  unfold Palette.SetColor
  split
  · exact set_getD_ne _ _ _ _ _ h
  · rfl

theorem init_fold_spec (grad : Nat → HighColor) (d : HighColor) :
    ∀ (t : Nat) (p : Palette), t ≤ p.Count →
      ((List.range t).foldl (fun q i => q.SetColor i (grad i)) p).Colors.length
          = p.Colors.length ∧
      ∀ j, ((List.range t).foldl (fun q i => q.SetColor i (grad i)) p).Colors.getD j d
          = if j < t then grad j else p.Colors.getD j d := by
  intro t
  induction t with
  | zero =>
    intro p _
    exact ⟨rfl, fun j => by simp⟩
  | succ t ih =>
    intro p hp
    obtain ⟨ihlen, ihget⟩ := ih p (Nat.le_of_succ_le hp)
    rw [List.range_succ, List.foldl_append, List.foldl_cons, List.foldl_nil]
    constructor
    · rw [setColor_length, ihlen]
    · intro j
      by_cases hj : j = t
      · subst hj
        rw [setColor_getD_eq _ _ _ _ (by rw [ihlen]; exact hp), if_pos (Nat.lt_succ_self j)]
      · rw [setColor_getD_ne _ _ _ _ _ (Ne.symm hj), ihget j]
        by_cases hjt : j < t
        · rw [if_pos hjt, if_pos (by omega)]
        · rw [if_neg hjt, if_neg (by omega)]

theorem getColor_in_range (p : Palette) (i : Nat) (h : i < p.Colors.length) :
    p.GetColor i = (p.Colors.getD i ⟨0, 0, 0⟩, []) := by
  unfold Palette.GetColor
  rw [dif_pos (show i < p.Count from h)]
  rw [get_eq_getD]

/-- C5: after Init on a 256-entry palette, GetColor i returns the gradient
triple (i, i*2 mod 256, i*4 mod 256) for i in 0..254 and pure white for 255,
with no fatal log on any of these calls. -/
theorem palette_init_gradient_getColor (cs : List HighColor) (hlen : cs.length = 256) :
    (∀ i, i < 255 →
      (Palette.Init ⟨cs⟩).GetColor i = (⟨i, i * 2 % 256, i * 4 % 256⟩, [])) ∧
    (Palette.Init ⟨cs⟩).GetColor 255 = (⟨255, 255, 255⟩, []) := by
  have hc : (⟨cs⟩ : Palette).Count = 256 := hlen
  obtain ⟨flen, fget⟩ :=
    init_fold_spec (fun i => HighColor.FromRGB555 i (i * 2 % 256) (i * 4 % 256))
      ⟨0, 0, 0⟩ ((⟨cs⟩ : Palette).Count - 1) ⟨cs⟩ (by omega)
  set q := (List.range ((⟨cs⟩ : Palette).Count - 1)).foldl
    (fun q i => q.SetColor i (HighColor.FromRGB555 i (i * 2 % 256) (i * 4 % 256)))
    (⟨cs⟩ : Palette) with hq
  have hInit : Palette.Init ⟨cs⟩
      = q.SetColor ((⟨cs⟩ : Palette).Count - 1) (HighColor.FromRGB555 255 255 255) := rfl
  have hqlen : q.Colors.length = 256 := by
    rw [flen]; exact hlen
  have hc1 : (⟨cs⟩ : Palette).Count - 1 = 255 := by rw [hc]
  rw [hc1] at hInit fget
  have hPlen : (Palette.Init ⟨cs⟩).Colors.length = 256 := by
    rw [hInit, setColor_length, hqlen]
  constructor
  · intro i hi
    rw [getColor_in_range _ _ (by rw [hPlen]; omega), hInit,
      setColor_getD_ne _ _ _ _ _ (by omega), fget i, if_pos hi]
    rfl
  · rw [getColor_in_range _ _ (by rw [hPlen]; omega), hInit,
      setColor_getD_eq _ _ _ _ (by rw [hqlen]; omega)]
    rfl

/-- Arbitrary concrete 16-bit color encoding used only to instantiate
theorems that are universally quantified over the external encoding; it is not
claimed to be the encoding of the external library. -/
def encSample : HighColor → Nat :=
  fun col => col.red % 32 + 32 * (col.green % 32) + 1024 * (col.blue % 32)

theorem palette_init_gradient_getColor_witness :
    (List.replicate 256 (⟨0, 0, 0⟩ : HighColor)).length = 256 ∧
    (Palette.Init ⟨List.replicate 256 (⟨0, 0, 0⟩ : HighColor)⟩).GetColor 37
      = (⟨37, 37 * 2 % 256, 37 * 4 % 256⟩, []) ∧
    (Palette.Init ⟨List.replicate 256 (⟨0, 0, 0⟩ : HighColor)⟩).GetColor 255
      = (⟨255, 255, 255⟩, []) :=
  ⟨List.length_replicate 256 ⟨0, 0, 0⟩,
   (palette_init_gradient_getColor (List.replicate 256 ⟨0, 0, 0⟩)
     (List.length_replicate 256 ⟨0, 0, 0⟩)).1 37 (by omega),
   (palette_init_gradient_getColor (List.replicate 256 ⟨0, 0, 0⟩)
     (List.length_replicate 256 ⟨0, 0, 0⟩)).2⟩

/-- C2: for in-bounds coordinates and a palette index argument, SetPixel
writes the bound palette color entry for that index, truncated to a byte, into
buffer cell y * width + x, and leaves every other buffer cell (and the buffer
length) unchanged. The quantification over enc covers every possible 16-bit
encoding of the external color type. -/
theorem setPixel_writes_palette_color_byte (enc : HighColor → Nat) (cv : Canvas)
    (x y c : Nat) (hx : x < cv.width) (hy : y < cv.height)
    (hc : c < cv.palette.Colors.length)
    (hlen : cv.imageData.length = cv.width * cv.height) :
    ((cv.SetPixel enc x y c).1.imageData.getD (y * cv.width + x) 0
        = enc (cv.palette.Colors.getD c ⟨0, 0, 0⟩) % 256) ∧
    (∀ j, j ≠ y * cv.width + x →
      (cv.SetPixel enc x y c).1.imageData.getD j 0 = cv.imageData.getD j 0) ∧
    (cv.SetPixel enc x y c).1.imageData.length = cv.imageData.length := by
  unfold Canvas.SetPixel
  rw [if_pos ⟨hx, hy⟩]
  refine ⟨?_, ?_, ?_⟩
  · exact set_getD_eq _ _ _ _ (by rw [hlen]; exact pixel_index_lt hx hy)
  · intro j hj
    exact set_getD_ne _ _ _ _ _ (Ne.symm hj)
  · simp

theorem setPixel_writes_palette_color_byte_witness :
    (1 < (Canvas.mk 2 1 [9, 9] ⟨[⟨1, 2, 4⟩, ⟨3, 6, 12⟩]⟩).width ∧
     [9, 9].length = 2 * 1) ∧
    ((Canvas.mk 2 1 [9, 9] ⟨[⟨1, 2, 4⟩, ⟨3, 6, 12⟩]⟩).SetPixel encSample 1 0 1).1.imageData.getD
        (0 * (Canvas.mk 2 1 [9, 9] ⟨[⟨1, 2, 4⟩, ⟨3, 6, 12⟩]⟩).width + 1) 0
      = encSample ((Canvas.mk 2 1 [9, 9] ⟨[⟨1, 2, 4⟩, ⟨3, 6, 12⟩]⟩).palette.Colors.getD 1
          ⟨0, 0, 0⟩) % 256 :=
  ⟨⟨by decide, by decide⟩,
   (setPixel_writes_palette_color_byte encSample
     (Canvas.mk 2 1 [9, 9] ⟨[⟨1, 2, 4⟩, ⟨3, 6, 12⟩]⟩) 1 0 1
     (by decide) (by decide) (by decide) (by decide)).1⟩

/-- C9: SetPixel with a coordinate outside the canvas bounds changes nothing
at all and emits no log message. -/
theorem setPixel_out_of_bounds_silent_noop (enc : HighColor → Nat) (cv : Canvas)
    (x y c : Nat) (h : ¬(x < cv.width ∧ y < cv.height)) :
    cv.SetPixel enc x y c = (cv, []) := by
  unfold Canvas.SetPixel
  rw [if_neg h]

theorem setPixel_out_of_bounds_silent_noop_witness :
    ¬(2 < (Canvas.mk 2 1 [9, 9] ⟨[⟨1, 2, 4⟩]⟩).width ∧
        0 < (Canvas.mk 2 1 [9, 9] ⟨[⟨1, 2, 4⟩]⟩).height) ∧
    (Canvas.mk 2 1 [9, 9] ⟨[⟨1, 2, 4⟩]⟩).SetPixel encSample 2 0 7
      = (Canvas.mk 2 1 [9, 9] ⟨[⟨1, 2, 4⟩]⟩, []) :=
  ⟨by decide,
   setPixel_out_of_bounds_silent_noop encSample
     (Canvas.mk 2 1 [9, 9] ⟨[⟨1, 2, 4⟩]⟩) 2 0 7 (by decide)⟩

theorem orbitZ_succ_fst (cr ci : ℚ) (n : Nat) :
    (orbitZ cr ci (n + 1)).1
      = (orbitZ cr ci n).1 * (orbitZ cr ci n).1
        - (orbitZ cr ci n).2 * (orbitZ cr ci n).2 + cr := rfl

theorem orbitZ_succ_snd (cr ci : ℚ) (n : Nat) :
    (orbitZ cr ci (n + 1)).2 = 2 * (orbitZ cr ci n).1 * (orbitZ cr ci n).2 + ci := rfl

theorem mandelGo_find (M : Nat) (cr ci : ℚ) :
    ∀ (f n it : Nat),
      mandelGo M cr ci f (orbitZ cr ci n).1 (orbitZ cr ci n).2 it
        = (((List.range f).find? (fun k => escapesAt cr ci (n + k + 1))).map
            (fun k => it + k)).getD M := by
  intro f
  induction f with
  | zero => intro n it; simp [mandelGo]
  | succ f ih =>
    intro n it
    rw [mandelGo]
    show (if (orbitZ cr ci (n + 1)).1 * (orbitZ cr ci (n + 1)).1
            + (orbitZ cr ci (n + 1)).2 * (orbitZ cr ci (n + 1)).2 > 4 then it
          else mandelGo M cr ci f (orbitZ cr ci (n + 1)).1 (orbitZ cr ci (n + 1)).2 (it + 1))
        = _
    rw [List.range_succ_eq_map, List.find?_cons]
    by_cases hesc : (orbitZ cr ci (n + 1)).1 * (orbitZ cr ci (n + 1)).1
        + (orbitZ cr ci (n + 1)).2 * (orbitZ cr ci (n + 1)).2 > 4
    · rw [if_pos hesc]
      have hp : escapesAt cr ci (n + 0 + 1) = true := by
        rw [show n + 0 + 1 = n + 1 from by omega]
        exact decide_eq_true hesc
      rw [hp]
      simp
    · rw [if_neg hesc]
      have hp : escapesAt cr ci (n + 0 + 1) = false := by
        rw [show n + 0 + 1 = n + 1 from by omega]
        exact decide_eq_false hesc
      rw [hp, ih (n + 1) (it + 1)]
      rw [List.find?_map]
      have hpred : ((fun k => escapesAt cr ci (n + k + 1)) ∘ Nat.succ)
          = fun k => escapesAt cr ci (n + 1 + k + 1) := by
        funext k
        show escapesAt cr ci (n + Nat.succ k + 1) = escapesAt cr ci (n + 1 + k + 1)
        rw [show n + Nat.succ k + 1 = n + 1 + k + 1 from by omega]
      rw [hpred, Option.map_map]
      rcases hfind : (List.range f).find? (fun k => escapesAt cr ci (n + 1 + k + 1)) with _ | k
      · rfl
      · show it + 1 + k = it + (k + 1)
        omega

/-- C3 amended: the engine returns the first index k < maxIterations whose
successor orbit point escapes (that is, one less than the smallest n with
orbit index n at least 1 whose squared magnitude exceeds 4), and maxIterations
when no orbit point z 1 .. z maxIterations escapes. -/
theorem engine_returns_pred_of_first_escape (p : MandelbrotParameters) (M : Nat) :
    calculateMandelbrot p M = (escapeIndex p.real p.imag M).getD M := by
  have h := mandelGo_find M p.real p.imag M 0 0
  have hpred : (fun k => escapesAt p.real p.imag (0 + k + 1))
      = fun k => escapesAt p.real p.imag (k + 1) := by
    funext k
    rw [show 0 + k + 1 = k + 1 from by omega]
  rw [hpred] at h
  have hmap : (fun k : Nat => 0 + k) = id := by
    funext k
    simp
  rw [hmap, Option.map_id] at h
  exact h

/-- C3 counterexample: at the sample (real = 2, imag = 0) with maxIterations
100, the engine returns 0 while the smallest n with squared orbit magnitude
exceeding 4 is n = 1, so the engine does not return that smallest n. -/
theorem engine_escape_count_spec_mismatch :
    calculateMandelbrot ⟨2, 0, 0, 0⟩ 100 = 0 ∧
    specSmallestEscape 2 0 100 = 1 ∧
    calculateMandelbrot ⟨2, 0, 0, 0⟩ 100 ≠ specSmallestEscape 2 0 100 := by
  have h0 : escapesAt 2 0 0 = false := by
    simp [escapesAt, orbitZ]
    norm_num
  have h1 : escapesAt 2 0 1 = true := by
    simp [escapesAt, orbitZ]
    norm_num
  have hcalc : calculateMandelbrot ⟨2, 0, 0, 0⟩ 100 = 0 := by
    show mandelGo 100 2 0 100 2 0 0 = 0
    rw [show (100 : Nat) = 99 + 1 from rfl, mandelGo]
    norm_num
  have hspec : specSmallestEscape 2 0 100 = 1 := by
    unfold specSmallestEscape
    rw [show (100 + 1 : Nat) = 100 + 1 from rfl, List.range_succ_eq_map, List.find?_cons, h0,
      List.find?_map]
    rw [show (100 : Nat) = 99 + 1 from rfl, List.range_succ_eq_map, List.find?_cons]
    rw [show (escapesAt 2 0 ∘ Nat.succ) 0 = true from h1]
    rfl
  exact ⟨hcalc, hspec, by rw [hcalc, hspec]; omega⟩

theorem mandelGo_origin (M : Nat) : ∀ f it, mandelGo M 0 0 f 0 0 it = M := by
  intro f
  induction f with
  | zero => intro it; rfl
  | succ f ih =>
    intro it
    rw [mandelGo]
    norm_num
    exact ih (it + 1)

theorem mandelGo_fixed_two (M : Nat) : ∀ f it, mandelGo M (-2) 0 f 2 0 it = M := by
  intro f
  induction f with
  | zero => intro it; rfl
  | succ f ih =>
    intro it
    rw [mandelGo]
    norm_num
    exact ih (it + 1)

/-- C4: the engine returns exactly maxIterations at the origin for every
maxIterations, returns 0 at the sample (real = 2, imag = 0), and the escape
comparison is the strict one: at (real = -2, imag = 0) the first computed
orbit point has squared magnitude exactly 4, the strict comparison keeps
iterating (returning maxIterations = 100), while the non-strict variant of
the spec would stop immediately with 0. -/
theorem engine_boundary_origin_and_two :
    (∀ M : Nat, calculateMandelbrot ⟨0, 0, 0, 0⟩ M = M) ∧
    calculateMandelbrot ⟨2, 0, 0, 0⟩ 100 = 0 ∧
    calculateMandelbrot ⟨-2, 0, 0, 0⟩ 100 = 100 ∧
    calculateMandelbrotGe ⟨-2, 0, 0, 0⟩ 100 = 0 := by
  refine ⟨?_, ?_, ?_, ?_⟩
  · intro M
    exact mandelGo_origin M M 0
  · show mandelGo 100 2 0 100 2 0 0 = 0
    rw [show (100 : Nat) = 99 + 1 from rfl, mandelGo]
    norm_num
  · show mandelGo 100 (-2) 0 100 (-2) 0 0 = 100
    rw [show (100 : Nat) = 99 + 1 from rfl, mandelGo]
    norm_num [mandelGo_fixed_two]
  · show mandelGoGe 100 (-2) 0 100 (-2) 0 0 = 0
    rw [show (100 : Nat) = 99 + 1 from rfl, mandelGoGe]
    norm_num

theorem setPixel_fst_width (enc : HighColor → Nat) (cv : Canvas) (x y c : Nat) :
    (cv.SetPixel enc x y c).1.width = cv.width := by
  unfold Canvas.SetPixel
  split <;> rfl

theorem setPixel_fst_height (enc : HighColor → Nat) (cv : Canvas) (x y c : Nat) :
    (cv.SetPixel enc x y c).1.height = cv.height := by
  unfold Canvas.SetPixel
  split <;> rfl

theorem setPixel_fst_palette (enc : HighColor → Nat) (cv : Canvas) (x y c : Nat) :
    (cv.SetPixel enc x y c).1.palette = cv.palette := by
  unfold Canvas.SetPixel
  split <;> rfl

theorem setPixel_fst_length (enc : HighColor → Nat) (cv : Canvas) (x y c : Nat) :
    (cv.SetPixel enc x y c).1.imageData.length = cv.imageData.length := by
  unfold Canvas.SetPixel
  split
  · simp
  · rfl

theorem setPixel_fst_getD_eq (enc : HighColor → Nat) (cv : Canvas) (x y c : Nat)
    (hx : x < cv.width) (hy : y < cv.height)
    (hlen : cv.imageData.length = cv.width * cv.height) :
    (cv.SetPixel enc x y c).1.imageData.getD (y * cv.width + x) 0
      = enc (cv.palette.Colors.getD c ⟨0, 0, 0⟩) % 256 := by
  unfold Canvas.SetPixel
  rw [if_pos ⟨hx, hy⟩]
  exact set_getD_eq _ _ _ _ (by rw [hlen]; exact pixel_index_lt hx hy)

theorem setPixel_fst_getD_ne (enc : HighColor → Nat) (cv : Canvas) (x y c j : Nat)
    (hj : j ≠ y * cv.width + x) :
    (cv.SetPixel enc x y c).1.imageData.getD j 0 = cv.imageData.getD j 0 := by
  unfold Canvas.SetPixel
  split
  · exact set_getD_ne _ _ _ _ _ (Ne.symm hj)
  · rfl

theorem renderRow_eq (enc : HighColor → Nat) (mnR mxR mnI mxI : ℚ) (W H M y : Nat)
    (cv : Canvas) :
    renderRow enc mnR mxR mnI mxI W H M y cv
      = (List.range W).foldl (renderPixel enc mnR mxR mnI mxI W H M y) cv := rfl

theorem renderRow_fold_spec (enc : HighColor → Nat) (mnR mxR mnI mxI : ℚ)
    (W H M y : Nat) :
    ∀ (t : Nat) (cv : Canvas), y < cv.height → cv.width = W →
      cv.imageData.length = cv.width * cv.height → t ≤ cv.width →
      ((List.range t).foldl (renderPixel enc mnR mxR mnI mxI W H M y) cv).width = cv.width ∧
      ((List.range t).foldl (renderPixel enc mnR mxR mnI mxI W H M y) cv).height = cv.height ∧
      ((List.range t).foldl (renderPixel enc mnR mxR mnI mxI W H M y) cv).palette = cv.palette ∧
      ((List.range t).foldl (renderPixel enc mnR mxR mnI mxI W H M y) cv).imageData.length
          = cv.imageData.length ∧
      (∀ x, x < t →
        ((List.range t).foldl (renderPixel enc mnR mxR mnI mxI W H M y) cv).imageData.getD
            (y * W + x) 0
          = enc (cv.palette.Colors.getD
              (calculateMandelbrot
                ⟨interpolate mnR mxR W x, interpolate mnI mxI H y, x, y⟩ M % 256)
              ⟨0, 0, 0⟩) % 256) ∧
      (∀ j, (∀ x, x < t → j ≠ y * W + x) →
        ((List.range t).foldl (renderPixel enc mnR mxR mnI mxI W H M y) cv).imageData.getD j 0
          = cv.imageData.getD j 0) := by
  intro t
  induction t with
  | zero =>
    intro cv _ _ _ _
    exact ⟨rfl, rfl, rfl, rfl, fun x hx => absurd hx (Nat.not_lt_zero x),
      fun j _ => rfl⟩
  | succ t ih =>
    intro cv hy hw hlen ht
    obtain ⟨ihw, ihh, ihp, ihl, ihset, ihold⟩ := ih cv hy hw hlen (Nat.le_of_succ_le ht)
    rw [List.range_succ, List.foldl_append, List.foldl_cons, List.foldl_nil]
    set q := (List.range t).foldl (renderPixel enc mnR mxR mnI mxI W H M y) cv with hq
    have hqx : t < q.width := by rw [ihw]; omega
    have hqy : y < q.height := by rw [ihh]; exact hy
    have hqlen : q.imageData.length = q.width * q.height := by
      rw [ihl, ihw, ihh]; exact hlen
    show (renderPixel enc mnR mxR mnI mxI W H M y q t).width = cv.width ∧ _
    unfold renderPixel
    refine ⟨?_, ?_, ?_, ?_, ?_, ?_⟩
    · rw [setPixel_fst_width, ihw]
    · rw [setPixel_fst_height, ihh]
    · rw [setPixel_fst_palette, ihp]
    · rw [setPixel_fst_length, ihl]
    · intro x hx
      by_cases hxt : x = t
      · subst hxt
        have heq := setPixel_fst_getD_eq enc q x y
          (calculateMandelbrot
            ⟨interpolate mnR mxR W x, interpolate mnI mxI H y, x, y⟩ M % 256) hqx hqy hqlen
        rw [ihw, hw] at heq
        rw [heq, ihp]
      · have hxlt : x < t := by omega
        have hne : y * W + x ≠ y * q.width + t := by
          rw [ihw, hw]
          omega
        rw [setPixel_fst_getD_ne enc q t y _ _ hne]
        exact ihset x hxlt
    · intro j hj
      have hjt : j ≠ y * q.width + t := by
        rw [ihw, hw]
        exact hj t (Nat.lt_succ_self t)
      rw [setPixel_fst_getD_ne enc q t y _ j hjt]
      exact ihold j (fun x hx => hj x (Nat.lt_succ_of_lt hx))

theorem render_def (enc : HighColor → Nat) (s : RendererState) :
    render enc s = { s with
      canvas := renderRow enc s.minReal s.maxReal s.minImag s.maxImag
        s.Width s.Height s.maxIterations
        (if s.Height ≤ s.currentY then 0 else s.currentY) s.canvas,
      currentX := 0,
      currentY := (if s.Height ≤ s.currentY then 0 else s.currentY) + 1,
      renderComplete :=
        if s.Height ≤ (if s.Height ≤ s.currentY then 0 else s.currentY) + 1 then true
        else s.renderComplete } := rfl

theorem render_step_inv (enc : HighColor → Nat) (W H : Nat) (mnR mxR mnI mxI : ℚ)
    (M : Nat) (pal : Palette) (k : Nat) (s : RendererState) (hk : k < H)
    (h : RenderInv enc W H mnR mxR mnI mxI M pal k s) :
    RenderInv enc W H mnR mxR mnI mxI M pal (k + 1) (render enc s) := by
  obtain ⟨hW, hH, h1, h2, h3, h4, hM, hcw, hch, hcp, hcl, hy, hrc, hpix⟩ := h
  rw [render_def]
  have hyr : (if s.Height ≤ s.currentY then 0 else s.currentY) = k := by
    rw [hH, hy, if_neg (by omega)]
  rw [hyr, h1, h2, h3, h4, hW, hH, hM, renderRow_eq]
  obtain ⟨fw, fh, fp, fl, fset, fold⟩ :=
    renderRow_fold_spec enc mnR mxR mnI mxI W H M k W s.canvas
      (by rw [hch]; exact hk) hcw
      (by rw [hcw, hch]; exact hcl) (by rw [hcw])
  refine ⟨rfl, rfl, rfl, rfl, rfl, rfl, rfl, ?_, ?_, ?_, ?_, rfl, ?_, ?_⟩
  · rw [fw, hcw]
  · rw [fh, hch]
  · rw [fp, hcp]
  · rw [fl, hcl]
  · by_cases hk1 : H ≤ k + 1
    · rw [if_pos hk1, decide_eq_true (by omega : 0 < k + 1 ∧ H ≤ k + 1)]
    · rw [if_neg hk1, hrc]
      have e1 : ¬(0 < k ∧ H ≤ k) := by omega
      have e2 : ¬(0 < k + 1 ∧ H ≤ k + 1) := by omega
      rw [decide_eq_false e1, decide_eq_false e2]
  · intro x yy hx hyy
    by_cases hyk : yy = k
    · subst hyk
      rw [fset x hx, hcp]
    · have hylt : yy < k := by omega
      rw [fold (yy * W + x) ?_]
      · exact hpix x yy hx hylt
      · intro x' hx' heq
        exact absurd (pixel_index_inj hx hx' heq).1 (by omega)

theorem render_iterate_inv (enc : HighColor → Nat) (W H : Nat) (mnR mxR mnI mxI : ℚ)
    (M : Nat) (pal : Palette) (data : List Nat) (hlen : data.length = W * H) :
    ∀ k, k ≤ H →
      RenderInv enc W H mnR mxR mnI mxI M pal k
        ((render enc)^[k] (mkRenderer W H mnR mxR mnI mxI M pal data)) := by
  intro k
  induction k with
  | zero =>
    intro _
    exact ⟨rfl, rfl, rfl, rfl, rfl, rfl, rfl, rfl, rfl, rfl, hlen, rfl,
      by simp [mkRenderer], fun x yy _ hyy => absurd hyy (Nat.not_lt_zero yy)⟩
  | succ k ih =>
    intro hk1
    rw [Function.iterate_succ_apply']
    exact render_step_inv enc W H mnR mxR mnI mxI M pal k _ (by omega) (ih (by omega))

/-- C1 (code-bug evidence): after Height ticks the renderer is Complete, and
every buffer cell (x, y) holds the byte-truncated palette COLOR entry at
index IterationEngine(sample(x, y)) mod 256 — the truncated color value, not
the bare index that the claim asserts the cell to hold. -/
theorem render_complete_buffer_holds_truncated_colors (enc : HighColor → Nat)
    (W H : Nat) (mnR mxR mnI mxI : ℚ) (M : Nat) (pal : Palette) (data : List Nat)
    (hlen : data.length = W * H) (hH : 0 < H) :
    ((render enc)^[H] (mkRenderer W H mnR mxR mnI mxI M pal data)).renderComplete = true ∧
    ∀ x y, x < W → y < H →
      ((render enc)^[H] (mkRenderer W H mnR mxR mnI mxI M pal data)).canvas.imageData.getD
          (y * W + x) 0
        = enc (pal.Colors.getD
            (calculateMandelbrot
              ⟨interpolate mnR mxR W x, interpolate mnI mxI H y, x, y⟩ M % 256)
            ⟨0, 0, 0⟩) % 256 := by
  obtain ⟨hW, hH2, h1, h2, h3, h4, hM, hcw, hch, hcp, hcl, hy, hrc, hpix⟩ :=
    render_iterate_inv enc W H mnR mxR mnI mxI M pal data hlen H (Nat.le_refl H)
  refine ⟨?_, hpix⟩
  rw [hrc]
  exact decide_eq_true ⟨hH, Nat.le_refl H⟩

theorem render_complete_buffer_holds_truncated_colors_witness :
    (([7, 7] : List Nat).length = 2 * 1 ∧ 0 < 1) ∧
    ((render encSample)^[1]
        (mkRenderer 2 1 (-2) 1 (-1) 1 1 ⟨[⟨1, 2, 4⟩]⟩ [7, 7])).renderComplete = true :=
  ⟨⟨by decide, by decide⟩,
   (render_complete_buffer_holds_truncated_colors encSample 2 1 (-2) 1 (-1) 1 1
     ⟨[⟨1, 2, 4⟩]⟩ [7, 7] (by decide) (by decide)).1⟩

theorem mainTick_complete (enc : HighColor → Nat) (s : RendererState)
    (h : isComplete s = true) : mainTick enc s = s := by
  unfold mainTick
  rw [if_pos h]

theorem mainTick_not_complete (enc : HighColor → Nat) (s : RendererState)
    (h : isComplete s = false) : mainTick enc s = render enc s := by
  unfold mainTick
  rw [h]
  simp

/-- C7: once the renderer is Complete, every subsequent main-loop tick (which
calls render only while isComplete is false, main.cxx lines 1073-1083) leaves
the whole renderer state, in particular the Canvas contents, unchanged, and no
pixel is recomputed. -/
theorem complete_state_ticks_are_noops (enc : HighColor → Nat) (s : RendererState)
    (h : isComplete s = true) : ∀ n, (mainTick enc)^[n] s = s := by
  intro n
  induction n with
  | zero => rfl
  | succ n ih =>
    rw [Function.iterate_succ_apply, mainTick_complete enc s h, ih]

theorem complete_state_ticks_are_noops_witness :
    isComplete { mkRenderer 1 1 (-2) 1 (-1) 1 1 ⟨[⟨0, 0, 0⟩]⟩ [0] with renderComplete := true }
        = true ∧
    (mainTick encSample)^[3]
        { mkRenderer 1 1 (-2) 1 (-1) 1 1 ⟨[⟨0, 0, 0⟩]⟩ [0] with renderComplete := true }
      = { mkRenderer 1 1 (-2) 1 (-1) 1 1 ⟨[⟨0, 0, 0⟩]⟩ [0] with renderComplete := true } :=
  ⟨rfl, complete_state_ticks_are_noops encSample
    { mkRenderer 1 1 (-2) 1 (-1) 1 1 ⟨[⟨0, 0, 0⟩]⟩ [0] with renderComplete := true } rfl 3⟩

theorem mainTick_iterate_char (enc : HighColor → Nat) (W H : Nat) (mnR mxR mnI mxI : ℚ)
    (M : Nat) (pal : Palette) (data : List Nat) (hH : 0 < H) :
    ∀ n, ((mainTick enc)^[n] (mkRenderer W H mnR mxR mnI mxI M pal data)).Height = H ∧
      ((mainTick enc)^[n] (mkRenderer W H mnR mxR mnI mxI M pal data)).currentY = min n H ∧
      ((mainTick enc)^[n] (mkRenderer W H mnR mxR mnI mxI M pal data)).renderComplete
        = decide (H ≤ n) := by
  intro n
  induction n with
  | zero =>
    refine ⟨rfl, by simp [mkRenderer], ?_⟩
    show (mkRenderer W H mnR mxR mnI mxI M pal data).renderComplete = decide (H ≤ 0)
    rw [show (mkRenderer W H mnR mxR mnI mxI M pal data).renderComplete = false from rfl]
    exact (decide_eq_false (by omega)).symm
  | succ n ih =>
    obtain ⟨ihH, ihy, ihc⟩ := ih
    rw [Function.iterate_succ_apply']
    set sIter := (mainTick enc)^[n] (mkRenderer W H mnR mxR mnI mxI M pal data) with hsIter
    by_cases hc : H ≤ n
    · have hcomp : isComplete sIter = true := by
        show sIter.renderComplete = true
        rw [ihc]
        exact decide_eq_true hc
      rw [mainTick_complete enc _ hcomp]
      refine ⟨ihH, ?_, ?_⟩
      · rw [ihy]; omega
      · rw [ihc, decide_eq_true hc, decide_eq_true (show H ≤ n + 1 by omega)]
    · have hcomp : isComplete sIter = false := by
        show sIter.renderComplete = false
        rw [ihc]
        exact decide_eq_false hc
      rw [mainTick_not_complete enc _ hcomp, render_def]
      have hmin : min n H = n := by omega
      have hy2 : (if sIter.Height ≤ sIter.currentY then 0 else sIter.currentY) = n := by
        rw [ihH, ihy, hmin, if_neg (by omega)]
      rw [hy2]
      refine ⟨ihH, by show n + 1 = min (n + 1) H; omega, ?_⟩
      rw [ihH, ihc]
      by_cases h1 : H ≤ n + 1
      · rw [if_pos h1, decide_eq_true h1]
      · rw [if_neg h1, decide_eq_false hc, decide_eq_false (by omega)]

/-- C10: along the program main loop, the scanline register currentY never
exceeds Height, and the completion flag is raised exactly in the states whose
currentY equals Height. -/
theorem renderer_currentY_bounds_and_done (enc : HighColor → Nat) (W H : Nat)
    (mnR mxR mnI mxI : ℚ) (M : Nat) (pal : Palette) (data : List Nat)
    (hH : 0 < H) (n : Nat) :
    ((mainTick enc)^[n] (mkRenderer W H mnR mxR mnI mxI M pal data)).currentY
        ≤ ((mainTick enc)^[n] (mkRenderer W H mnR mxR mnI mxI M pal data)).Height ∧
    (((mainTick enc)^[n] (mkRenderer W H mnR mxR mnI mxI M pal data)).renderComplete = true
      ↔ ((mainTick enc)^[n] (mkRenderer W H mnR mxR mnI mxI M pal data)).currentY
          = ((mainTick enc)^[n] (mkRenderer W H mnR mxR mnI mxI M pal data)).Height) := by
  obtain ⟨hh, hy, hc⟩ := mainTick_iterate_char enc W H mnR mxR mnI mxI M pal data hH n
  refine ⟨by rw [hy, hh]; omega, ?_⟩
  rw [hy, hh, hc]
  constructor
  · intro h
    have := of_decide_eq_true h
    omega
  · intro h
    exact decide_eq_true (by omega)

theorem renderer_currentY_bounds_and_done_witness :
    0 < 1 ∧
    ((mainTick encSample)^[2] (mkRenderer 1 1 (-2) 1 (-1) 1 1 ⟨[⟨0, 0, 0⟩]⟩ [0])).currentY
        ≤ ((mainTick encSample)^[2] (mkRenderer 1 1 (-2) 1 (-1) 1 1 ⟨[⟨0, 0, 0⟩]⟩ [0])).Height :=
  ⟨by decide,
   (renderer_currentY_bounds_and_done encSample 1 1 (-2) 1 (-1) 1 1 ⟨[⟨0, 0, 0⟩]⟩ [0]
     (by decide) 2).1⟩

/-- C6 (code-bug evidence): the vblank DMA copy is issued for
Width * Height * sizeof(uint16_t) bytes while the canvas buffer allocated by
the constructor holds Width * Height bytes, so the copy is twice the size of
the raw buffer rather than exactly the raw buffer. -/
theorem vblank_copy_byte_count_mismatch (pal : Palette) :
    copyToVDP1Bytes WIDTH HEIGHT = 153600 ∧
    (Canvas.alloc WIDTH HEIGHT pal).imageData.length = 76800 ∧
    copyToVDP1Bytes WIDTH HEIGHT ≠ (Canvas.alloc WIDTH HEIGHT pal).imageData.length := by
  have h1 : copyToVDP1Bytes WIDTH HEIGHT = 153600 := by decide
  have h2 : (Canvas.alloc WIDTH HEIGHT pal).imageData.length = 76800 := by
    show (List.replicate (WIDTH * HEIGHT) 0).length = 76800
    rw [List.length_replicate]
    decide
  exact ⟨h1, h2, by rw [h1, h2]; omega⟩

theorem offloadRow_eq (enc : HighColor → Nat) (oracle : Nat → Bool) (mnR mxR mnI mxI : ℚ)
    (W H y : Nat) (acc : Canvas × SlaveTask × Nat) :
    offloadRow enc oracle mnR mxR mnI mxI W H y acc
      = (List.range W).foldl (offloadPixel enc oracle mnR mxR mnI mxI W H y) acc := rfl

theorem renderOffload_def (enc : HighColor → Nat) (oracle : Nat → Bool) (s : OffloadState) :
    renderOffload enc oracle s = { s with
      canvas := (offloadRow enc oracle s.minReal s.maxReal s.minImag s.maxImag
        s.Width s.Height (if s.Height ≤ s.currentY then 0 else s.currentY)
        (s.canvas, s.task, s.polls)).1,
      task := (offloadRow enc oracle s.minReal s.maxReal s.minImag s.maxImag
        s.Width s.Height (if s.Height ≤ s.currentY then 0 else s.currentY)
        (s.canvas, s.task, s.polls)).2.1,
      polls := (offloadRow enc oracle s.minReal s.maxReal s.minImag s.maxImag
        s.Width s.Height (if s.Height ≤ s.currentY then 0 else s.currentY)
        (s.canvas, s.task, s.polls)).2.2,
      currentX := 0,
      currentY := (if s.Height ≤ s.currentY then 0 else s.currentY) + 1,
      renderComplete :=
        if s.Height ≤ (if s.Height ≤ s.currentY then 0 else s.currentY) + 1 then true
        else s.renderComplete } := rfl

theorem offload_fold_fst (enc : HighColor → Nat) (mnR mxR mnI mxI : ℚ) (W H y : Nat) :
    ∀ (l : List Nat) (cv : Canvas) (tk : SlaveTask) (n : Nat),
      (l.foldl (offloadPixel enc (fun _ => false) mnR mxR mnI mxI W H y) (cv, tk, n)).1
        = l.foldl (renderPixel enc mnR mxR mnI mxI W H MAX_ITERATIONS y) cv := by
  intro l
  induction l with
  | nil => intro cv tk n; rfl
  | cons a as ih =>
    intro cv tk n
    rw [List.foldl_cons, List.foldl_cons]
    rw [show offloadPixel enc (fun _ => false) mnR mxR mnI mxI W H y (cv, tk, n) a
        = (renderPixel enc mnR mxR mnI mxI W H MAX_ITERATIONS y cv a,
           ⟨⟨interpolate mnR mxR W a, interpolate mnI mxI H y, a, y⟩, tk.iteration⟩, n + 1)
      from rfl]
    exact ih _ _ _

theorem render_iterate_maxIterations (enc : HighColor → Nat) :
    ∀ (n : Nat) (s : RendererState), ((render enc)^[n] s).maxIterations = s.maxIterations := by
  intro n
  induction n with
  | zero => intro s; rfl
  | succ n ih =>
    intro s
    rw [Function.iterate_succ_apply, ih (render enc s)]
    rfl

theorem offload_step_coupled (enc : HighColor → Nat) (so : OffloadState)
    (sl : RendererState) (hM : sl.maxIterations = MAX_ITERATIONS)
    (h : OffCoupled so sl) :
    OffCoupled (renderOffload enc (fun _ => false) so) (render enc sl) := by
  obtain ⟨hW, hH, h1, h2, h3, h4, hcv, hy, hc⟩ := h
  rw [renderOffload_def, render_def]
  unfold OffCoupled
  refine ⟨hW, hH, h1, h2, h3, h4, ?_, ?_, ?_⟩
  · show (offloadRow enc (fun _ => false) so.minReal so.maxReal so.minImag so.maxImag
        so.Width so.Height (if so.Height ≤ so.currentY then 0 else so.currentY)
        (so.canvas, so.task, so.polls)).1
      = renderRow enc sl.minReal sl.maxReal sl.minImag sl.maxImag
        sl.Width sl.Height sl.maxIterations
        (if sl.Height ≤ sl.currentY then 0 else sl.currentY) sl.canvas
    rw [h1, h2, h3, h4, hW, hH, hcv, hy, hM, offloadRow_eq, renderRow_eq]
    exact offload_fold_fst enc sl.minReal sl.maxReal sl.minImag sl.maxImag
      sl.Width sl.Height _ (List.range sl.Width) sl.canvas so.task so.polls
  · show (if so.Height ≤ so.currentY then 0 else so.currentY) + 1
      = (if sl.Height ≤ sl.currentY then 0 else sl.currentY) + 1
    rw [hH, hy]
  · show (if so.Height ≤ (if so.Height ≤ so.currentY then 0 else so.currentY) + 1 then true
        else so.renderComplete)
      = (if sl.Height ≤ (if sl.Height ≤ sl.currentY then 0 else sl.currentY) + 1 then true
        else sl.renderComplete)
    rw [hH, hy, hc]

theorem offload_iterate_coupled (enc : HighColor → Nat) (W H : Nat)
    (mnR mxR mnI mxI : ℚ) (pal : Palette) (data : List Nat) (tk : SlaveTask) :
    ∀ n, OffCoupled
        ((renderOffload enc (fun _ => false))^[n]
          (mkOffloadRenderer W H mnR mxR mnI mxI pal data tk))
        ((render enc)^[n]
          (mkRenderer W H mnR mxR mnI mxI MAX_ITERATIONS pal data)) := by
  intro n
  induction n with
  | zero => exact ⟨rfl, rfl, rfl, rfl, rfl, rfl, rfl, rfl, rfl⟩
  | succ n ih =>
    rw [Function.iterate_succ_apply', Function.iterate_succ_apply']
    exact offload_step_coupled enc _ _
      (by rw [render_iterate_maxIterations]; rfl) ih

/-- C8: when the secondary unit never reports a completed task (the IsDone
oracle answers false at every per-pixel poll), the offload renderer and the
local-only renderer have identical Canvas contents and completion flags after
every number of ticks; in particular after Height ticks the offload renderer
is Complete and every pixel holds exactly what the always-executed local
computation writes. -/
theorem offload_never_done_equals_local (enc : HighColor → Nat) (W H : Nat)
    (mnR mxR mnI mxI : ℚ) (pal : Palette) (data : List Nat) (tk : SlaveTask)
    (hlen : data.length = W * H) (hH : 0 < H) :
    (∀ n,
      ((renderOffload enc (fun _ => false))^[n]
          (mkOffloadRenderer W H mnR mxR mnI mxI pal data tk)).canvas
        = ((render enc)^[n]
            (mkRenderer W H mnR mxR mnI mxI MAX_ITERATIONS pal data)).canvas ∧
      ((renderOffload enc (fun _ => false))^[n]
          (mkOffloadRenderer W H mnR mxR mnI mxI pal data tk)).renderComplete
        = ((render enc)^[n]
            (mkRenderer W H mnR mxR mnI mxI MAX_ITERATIONS pal data)).renderComplete) ∧
    ((renderOffload enc (fun _ => false))^[H]
        (mkOffloadRenderer W H mnR mxR mnI mxI pal data tk)).renderComplete = true ∧
    ∀ x y, x < W → y < H →
      ((renderOffload enc (fun _ => false))^[H]
          (mkOffloadRenderer W H mnR mxR mnI mxI pal data tk)).canvas.imageData.getD
          (y * W + x) 0
        = enc (pal.Colors.getD
            (calculateMandelbrot
              ⟨interpolate mnR mxR W x, interpolate mnI mxI H y, x, y⟩
              MAX_ITERATIONS % 256)
            ⟨0, 0, 0⟩) % 256 := by
  have hcoup := offload_iterate_coupled enc W H mnR mxR mnI mxI pal data tk
  obtain ⟨iW, iH, i1, i2, i3, i4, iM, icw, ich, icp, icl, iy, irc, ipix⟩ :=
    render_iterate_inv enc W H mnR mxR mnI mxI MAX_ITERATIONS pal data hlen H (Nat.le_refl H)
  refine ⟨?_, ?_, ?_⟩
  · intro n
    obtain ⟨_, _, _, _, _, _, hcv, _, hc⟩ := hcoup n
    exact ⟨hcv, hc⟩
  · obtain ⟨_, _, _, _, _, _, _, _, hc⟩ := hcoup H
    rw [hc, irc]
    exact decide_eq_true ⟨hH, Nat.le_refl H⟩
  · intro x y hx hy
    obtain ⟨_, _, _, _, _, _, hcv, _, _⟩ := hcoup H
    rw [hcv]
    exact ipix x y hx hy

theorem offload_never_done_equals_local_witness :
    (([0] : List Nat).length = 1 * 1 ∧ 0 < 1) ∧
    ((renderOffload encSample (fun _ => false))^[1]
        (mkOffloadRenderer 1 1 (-2) 1 (-1) 1 ⟨[⟨0, 0, 0⟩]⟩ [0]
          ⟨⟨0, 0, 0, 0⟩, 0⟩)).renderComplete = true :=
  ⟨⟨by decide, by decide⟩,
   (offload_never_done_equals_local encSample 1 1 (-2) 1 (-1) 1 ⟨[⟨0, 0, 0⟩]⟩ [0]
     ⟨⟨0, 0, 0, 0⟩, 0⟩ (by decide) (by decide)).2.1⟩
